import Mathlib

/-!
Shallow embedding of the NexusQuest sandboxed execution engine and its
automated test harness.

Source files embedded here:
* `dockerService` (persistent-container variant): `executeCode`,
  `executeProject`, `demuxStream`, `getExecutionCommand`,
  `persistentContainers`.
* the quiz router: the per-test-case harness of `POST /:id/submit`
  (`normalize`, result building, hidden-case redaction, summary), and the
  test-case validation of quiz creation.
* `routes/daily-challenge.ts`: `executeCodeInTempContainer`.
* `middleware/validation.js`: `validateCode`.

Side-effecting Docker calls are modelled by an explicit environment value
that fixes the outcome of each container-API interaction, and every run
also produces a trace of the container actions it attempted, so that
properties such as "no container work happens for unsupported languages"
or "cleanup runs on every exit path" become statements about the trace.
JavaScript strings are modelled as Lean `String`s (code points; identical
on the ASCII data all claims use), and binary stream chunks as lists of
byte values.
-/

namespace NexusQuest

/-- Whitespace characters recognised by the JavaScript `\s` class and by
`String.prototype.trim`, restricted to the ASCII range (the only range the
claims exercise): space, tab, LF, VT, FF, CR. -/
def wsChar (c : Char) : Bool :=
  c = ' ' || c = '\t' || c = '\n' || c = '\r' || c = '\x0b' || c = '\x0c'

/-- JavaScript `String.prototype.trim`: drop leading and trailing
whitespace. -/
def jsTrim (s : String) : String :=
  String.mk (((s.data.dropWhile wsChar).reverse.dropWhile wsChar).reverse)

/-- JavaScript `String.prototype.toLowerCase`, restricted to the ASCII
case mapping (the only one a case-insensitive comparison against the
ASCII language names and patterns can observe without the regex `u`
flag). -/
def jsToLower (s : String) : String :=
  String.mk (s.data.map Char.toLower)

/-- One step of the global, left-to-right, non-overlapping replacement
performed by `value.replace(/\r\n/g, '\n')`. -/
def replaceCRLF : List Char → List Char
  | '\r' :: '\n' :: rest => '\n' :: replaceCRLF rest
  | c :: rest => c :: replaceCRLF rest
  | [] => []

/-- The quiz harness normalizer:
`(value) => value.replace(/\r\n/g, '\n').trim()`. -/
def normalize (value : String) : String :=
  jsTrim (String.mk (replaceCRLF value.data))

/-- Match a literal character sequence at the head of the input, returning
the remaining input on success. -/
def matchLit : List Char → List Char → Option (List Char)
  | [], rest => some rest
  | _ :: _, [] => none
  | p :: ps, c :: cs => if p = c then matchLit ps cs else none

/-- JavaScript `String.prototype.includes` as a plain substring test. -/
def strIncludes (s sub : String) : Bool :=
  s.data.tails.any fun t => (matchLit sub.data t).isSome

/-- JavaScript `String.prototype.replace` with a plain-string pattern:
replace the first occurrence of `pat` (here always non-empty) by `rep`. -/
def replaceFirstAux (pat rep : List Char) : List Char → List Char
  | [] => []
  | c :: cs =>
    if (matchLit pat (c :: cs)).isSome then rep ++ (c :: cs).drop pat.length
    else c :: replaceFirstAux pat rep cs

/-- String-level wrapper of `replaceFirstAux`. -/
def jsReplaceFirst (s pat rep : String) : String :=
  String.mk (replaceFirstAux pat.data rep.data s.data)

/-- Word characters of the JavaScript `\w` class / `\b` boundary:
ASCII letters, digits and underscore. -/
def isWordChar (c : Char) : Bool :=
  c.isAlpha || c.isDigit || c = '_'

/-- Match regex fragment `\s+lit` at the head of the input (used with
literals starting in a non-whitespace character, for which greedy matching
with backtracking coincides with maximal whitespace consumption). -/
def matchWsPlusLit (lit l : List Char) : Bool :=
  match l with
  | [] => false
  | c :: cs => wsChar c && (matchLit lit (cs.dropWhile wsChar)).isSome

/-- Test for regex `/import\s+kw/` anywhere in the (already lowercased)
input. -/
def importPat (kw : List Char) (l : List Char) : Bool :=
  l.tails.any fun t =>
    match matchLit ( "import".data) t with
    | some r => matchWsPlusLit kw r
    | none => false

/-- Test for regex `/name\s*\(/` anywhere in the (already lowercased)
input. -/
def callPat (name : List Char) (l : List Char) : Bool :=
  l.tails.any fun t =>
    match matchLit name t with
    | some r =>
      match r.dropWhile wsChar with
      | '(' :: _ => true
      | _ => false
    | none => false

/-- Test for a literal substring anywhere in the input. -/
def litAnywhere (lit : List Char) (l : List Char) : Bool :=
  l.tails.any fun t => (matchLit lit t).isSome

/-- Match a whole word `w` at the head of the input: the literal followed
by a non-word character or the end of input (the trailing `\b`). -/
def wordAt (w : List Char) (l : List Char) : Bool :=
  match matchLit w l with
  | some [] => true
  | some (c :: _) => !isWordChar c
  | none => false

/-- Scan for `\bw\b`, tracking whether the previous character was a word
character (the leading `\b`). -/
def scanWordAux (w : List Char) : Bool → List Char → Bool
  | _, [] => false
  | prevWord, c :: cs =>
    ((!prevWord) && wordAt w (c :: cs)) || scanWordAux w (isWordChar c) cs

/-- Test for regex `/\bw\b/` anywhere in the input. -/
def wordPat (w : List Char) (l : List Char) : Bool :=
  scanWordAux w false l

/-- Match the capture of regex `/public\s+class\s+(\w+)/` at the head of
the input: `public`, whitespace, `class`, whitespace, then a maximal
non-empty word. -/
def matchPublicClass (l : List Char) : Option String :=
  match matchLit ( "public".data) l with
  | none => none
  | some r1 =>
    match r1 with
    | [] => none
    | c1 :: cs1 =>
      if wsChar c1 then
        match matchLit ( "class".data) (cs1.dropWhile wsChar) with
        | none => none
        | some r2 =>
          match r2 with
          | [] => none
          | c2 :: cs2 =>
            if wsChar c2 then
              let w := (cs2.dropWhile wsChar).takeWhile isWordChar
              if w.isEmpty then none else some (String.mk w)
            else none
      else none

/-- Leftmost match of `/public\s+class\s+(\w+)/`, scanning start positions
left to right. -/
def scanPublicClass : List Char → Option String
  | [] => none
  | c :: cs =>
    match matchPublicClass (c :: cs) with
    | some w => some w
    | none => scanPublicClass cs

/-- Java class-name detection used when naming the source file:
`code.match(/public\s+class\s+(\w+)/)`, defaulting to `Main`. -/
def javaClassName (code : String) : String :=
  (scanPublicClass code.data).getD "Main"

/-- A structured execution result: the `{ output, error }` part of the
service result object (`executionTime` is wall-clock time and carries no
claim-relevant content). -/
structure ExecResult where
  output : String
  error : String
deriving DecidableEq

/-- Container-API actions a run can attempt, recorded as a trace. -/
inductive Action where
  | inspect : Action
  | startContainer : Action
  | settleDelay : Action
  | createContainer : Action
  | stopContainer : Action
  | removeContainer : Action
  | mkdirDirs (cmd : String) : Action
  | writeSource (fileName : String) : Action
  | execRun (cmd : String) : Action
  | writeStdin (s : String) : Action
  | destroyStream (afterMs : Nat) : Action
  | cleanupFiles (cmd : String) : Action
deriving DecidableEq

/-- Whether an action is the best-effort removal of written source and
compiled artifacts. -/
def Action.isCleanupFiles : Action → Bool
  | .cleanupFiles _ => true
  | _ => false

/-- An error raised by a Docker API call: its HTTP status code (when the
client attached one) and its message. -/
structure DockerErr where
  statusCode : Option Nat
  message : String
deriving DecidableEq

/-- The slice of `container.inspect()` that the service reads:
`info.State.Running`. -/
structure ContainerInfo where
  running : Bool
deriving DecidableEq

/-- Which branch of `Promise.race([demuxStream(stream), timeout])` wins:
the demultiplexer resolving with both buffers, the timeout firing, or the
stream erroring (which rejects `demuxStream`). -/
inductive RaceOutcome where
  | collected (stdout stderr : String)
  | timeout
  | streamError (msg : String)
deriving DecidableEq

/-- Outcome environment for one `executeCode` run: what each Docker
interaction would return. -/
structure ExecEnv where
  inspect : Except DockerErr ContainerInfo
  startC : Except DockerErr Unit
  writeExec : Except DockerErr Unit
  runExec : Except DockerErr Unit
  race : RaceOutcome
  cleanupExec : Except DockerErr Unit

/-- The `persistentContainers` language-to-container-name record, looked
up with the already lowercased language. -/
def persistentContainers (l : String) : Option String :=
  if l = "python" then some "nexusquest-python"
  else if l = "javascript" then some "nexusquest-javascript"
  else if l = "java" then some "nexusquest-java"
  else if l = "cpp" then some "nexusquest-cpp"
  else if l = "c++" then some "nexusquest-cpp"
  else none

/-- The `getExecutionCommand(language, mainFile)` builder; the default
switch branch throws `Unsupported language`. -/
def getExecutionCommand (language mainFile : String) : Except String String :=
  let l := jsToLower language
  if l = "python" then .ok ( "python3 -u /app/" ++ mainFile)
  else if l = "javascript" then .ok ( "node /app/" ++ mainFile)
  else if l = "java" then
    .ok ( "cd /app && javac " ++ mainFile ++ " && java " ++ jsReplaceFirst mainFile ".java" "")
  else if l = "cpp" || l = "c++" then
    .ok ( "cd /app && g++ -std=c++20 -o " ++ jsReplaceFirst mainFile ".cpp" "" ++ " " ++ mainFile ++ " && ./" ++ jsReplaceFirst mainFile ".cpp" "")
  else .error ( "Unsupported language: " ++ language)

/-- The per-language source file name chosen by `executeCode` (switch on
the lowercased language, with Java class detection and a `main.txt`
default). -/
def fileNameFor (language code : String) : String :=
  let l := jsToLower language
  if l = "python" then "main.py"
  else if l = "javascript" then "main.js"
  else if l = "java" then javaClassName code ++ ".java"
  else if l = "cpp" then "main.cpp"
  else if l = "c++" then "main.cpp"
  else "main.txt"

/-- The sentinel substituted for an empty trimmed stdout. -/
def noOutputSentinel : String := "Code executed successfully (no output)"

/-- The wall-clock budget of the single-run `executeCode` race, in
milliseconds. -/
def singleRunTimeoutMs : Nat := 10000

/-- The wall-clock budget of the multi-file `executeProject` race, in
milliseconds. -/
def projectTimeoutMs : Nat := 15000

/-- The caught-error classifier shared by the tails of `executeCode` and
`executeProject`: a message containing `timeout` becomes the fixed
timed-out result, anything else is surfaced as the error text (with the
`Execution failed` fallback for an empty message). -/
def execCatch (timeoutText msg : String) : ExecResult :=
  if strIncludes msg "timeout" then { output := "", error := timeoutText }
  else { output := "", error := if msg = "" then "Execution failed" else msg }

/-- The timed-out result text of `executeCode`. -/
def singleRunTimeoutText : String := "Execution timed out (maximum 10 seconds allowed)"

/-- The timed-out result text of `executeProject`. -/
def projectTimeoutText : String := "Execution timed out (maximum 15 seconds allowed)"

/-- The artifact-cleanup command built by `executeCode` after output
collection: remove the source file, class files, and the compiled C++
binary name. -/
def cleanupCmdFor (fileName : String) : String :=
  "cd /app && rm -f " ++ fileName ++ " *.class " ++ jsReplaceFirst fileName ".cpp" ""

/-- The stdin trace entries of an attached run: `stream.write(input + a
newline)` happens only when `input` is truthy (present and non-empty). -/
def stdinActions (input : Option String) : List Action :=
  match input with
  | some s => if s = "" then [] else [Action.writeStdin (s ++ "\n")]
  | none => []

/-- The tail of `executeCode` once the container is known to be running:
write the source, build and start the run command, feed stdin, race the
demultiplexer against the 10-second timeout, clean up artifacts on the
collected branch, and assemble the result; thrown errors fall to the
shared catch handler. -/
def executeCodeTail (env : ExecEnv) (code language : String) (input : Option String)
    (trace : List Action) : ExecResult × List Action :=
  let fileName := fileNameFor language code
  let t1 := trace ++ [Action.writeSource fileName]
  match env.writeExec with
  | .error e => (execCatch singleRunTimeoutText e.message, t1)
  | .ok _ =>
    match getExecutionCommand language fileName with
    | .error msg => (execCatch singleRunTimeoutText msg, t1)
    | .ok execCmd =>
      let t2 := t1 ++ [Action.execRun execCmd]
      match env.runExec with
      | .error e => (execCatch singleRunTimeoutText e.message, t2)
      | .ok _ =>
        let t3 := t2 ++ stdinActions input
        match env.race with
        | .timeout =>
          (execCatch singleRunTimeoutText "Execution timeout (10 seconds)",
            t3 ++ [Action.destroyStream singleRunTimeoutMs])
        | .streamError msg => (execCatch singleRunTimeoutText msg, t3)
        | .collected so se =>
          let t4 := t3 ++ [Action.cleanupFiles (cleanupCmdFor fileName)]
          ({ output := if jsTrim so = "" then noOutputSentinel else jsTrim so,
             error := jsTrim se }, t4)

/-- The persistent-container `executeCode(code, language, input?)`: resolve
the container name from the lowercased language (failing fast when
unsupported), inspect and if necessary start the container (a 404 becomes
the `ContainerMissing` message, other inspect errors rethrow into the
catch handler), then run `executeCodeTail`. -/
def executeCode (env : ExecEnv) (code language : String) (input : Option String) :
    ExecResult × List Action :=
  match persistentContainers (jsToLower language) with
  | none => ({ output := "", error := "Unsupported language: " ++ language }, [])
  | some containerName =>
    match env.inspect with
    | .error e =>
      if e.statusCode = some 404 then
        ({ output := "",
           error := "Container " ++ containerName ++ " not found. Please run: docker-compose up -d" },
          [Action.inspect])
      else (execCatch singleRunTimeoutText e.message, [Action.inspect])
    | .ok info =>
      if info.running then
        executeCodeTail env code language input [Action.inspect]
      else
        match env.startC with
        | .error e =>
          (execCatch singleRunTimeoutText e.message, [Action.inspect, Action.startContainer])
        | .ok _ =>
          executeCodeTail env code language input
            [Action.inspect, Action.startContainer, Action.settleDelay]

/-- One file of a multi-file project request. -/
structure ProjectFile where
  name : String
  content : String
  language : String
deriving DecidableEq

/-- The `ProjectExecutionRequest` of `executeProject`. -/
structure ProjectExecutionRequest where
  files : List ProjectFile
  mainFile : String
  language : String
  input : Option String

/-- Outcome environment for one `executeProject` run (`writes i` is the
outcome of writing the `i`-th file). -/
structure ProjectEnv where
  inspect : Except DockerErr ContainerInfo
  startC : Except DockerErr Unit
  mkdirExec : Except DockerErr Unit
  writes : Nat → Except DockerErr Unit
  runExec : Except DockerErr Unit
  race : RaceOutcome
  cleanupExec : Except DockerErr Unit

/-- The parent directories contributed by one file name: for
`parts = name.split(sep)` with more than one part, the joins of the first
`i` parts for `i` from 1 to `parts.length - 1`. -/
def dirsOfFile (name : String) : List String :=
  let parts := name.splitOn "/"
  if 1 < parts.length then
    (List.range (parts.length - 1)).map fun i => String.intercalate "/" (parts.take (i + 1))
  else []

/-- Insertion-ordered deduplication, as iteration over a JavaScript `Set`
visits elements in insertion order. -/
def insertUnique (acc : List String) (d : String) : List String :=
  if d ∈ acc then acc else acc ++ [d]

/-- All parent directories needed by the project files, in first-insertion
order. -/
def dirsOf (files : List ProjectFile) : List String :=
  files.foldl (fun acc f => (dirsOfFile f.name).foldl insertUnique acc) []

/-- The `mkdir -p` command chain built when `dirs` is non-empty. -/
def mkdirCmdOf (dirs : List String) : String :=
  String.intercalate " && " (dirs.map fun d => "mkdir -p /app/" ++ d)

/-- The per-file write loop of `executeProject`: write files in order,
stopping with the thrown message at the first failing write. -/
def writeProjectFiles (writes : Nat → Except DockerErr Unit) :
    Nat → List ProjectFile → List Action × Option String
  | _, [] => ([], none)
  | i, f :: rest =>
    match writes i with
    | .error e => ([Action.writeSource f.name], some e.message)
    | .ok _ =>
      let (tr, err) := writeProjectFiles writes (i + 1) rest
      (Action.writeSource f.name :: tr, err)

/-- The artifact-cleanup command built by `executeProject`. -/
def projectCleanupCmd (files : List ProjectFile) (mainFile : String) : String :=
  "cd /app && rm -rf " ++ String.intercalate " " (files.map (fun f => f.name)) ++
    " *.class " ++ jsReplaceFirst mainFile ".cpp" ""

/-- The tail of `executeProject` once the container is running: create
directories, write every file, build and start the run command, feed
stdin, race the demultiplexer against the 15-second timeout, clean up on
the collected branch, and assemble the result. -/
def executeProjectTail (env : ProjectEnv) (req : ProjectExecutionRequest)
    (trace : List Action) : ExecResult × List Action :=
  let ds := dirsOf req.files
  let mkdirStep : List Action × Option String :=
    if ds.isEmpty then ([], none)
    else
      match env.mkdirExec with
      | .error e => ([Action.mkdirDirs (mkdirCmdOf ds)], some e.message)
      | .ok _ => ([Action.mkdirDirs (mkdirCmdOf ds)], none)
  match mkdirStep with
  | (t, some msg) => (execCatch projectTimeoutText msg, trace ++ t)
  | (t, none) =>
    let t1 := trace ++ t
    match writeProjectFiles env.writes 0 req.files with
    | (tw, some msg) => (execCatch projectTimeoutText msg, t1 ++ tw)
    | (tw, none) =>
      let t2 := t1 ++ tw
      match getExecutionCommand req.language req.mainFile with
      | .error msg => (execCatch projectTimeoutText msg, t2)
      | .ok execCmd =>
        let t3 := t2 ++ [Action.execRun execCmd]
        match env.runExec with
        | .error e => (execCatch projectTimeoutText e.message, t3)
        | .ok _ =>
          let t4 := t3 ++ stdinActions req.input
          match env.race with
          | .timeout =>
            (execCatch projectTimeoutText "Execution timeout (15 seconds)",
              t4 ++ [Action.destroyStream projectTimeoutMs])
          | .streamError msg => (execCatch projectTimeoutText msg, t4)
          | .collected so se =>
            let t5 := t4 ++ [Action.cleanupFiles (projectCleanupCmd req.files req.mainFile)]
            ({ output := if jsTrim so = "" then noOutputSentinel else jsTrim so,
               error := jsTrim se }, t5)

/-- The multi-file `executeProject(request)`: identical container
resolution to `executeCode`, then `executeProjectTail`. -/
def executeProject (env : ProjectEnv) (req : ProjectExecutionRequest) :
    ExecResult × List Action :=
  match persistentContainers (jsToLower req.language) with
  | none => ({ output := "", error := "Unsupported language: " ++ req.language }, [])
  | some containerName =>
    match env.inspect with
    | .error e =>
      if e.statusCode = some 404 then
        ({ output := "",
           error := "Container " ++ containerName ++ " not found. Please run: docker-compose up -d" },
          [Action.inspect])
      else (execCatch projectTimeoutText e.message, [Action.inspect])
    | .ok info =>
      if info.running then
        executeProjectTail env req [Action.inspect]
      else
        match env.startC with
        | .error e =>
          (execCatch projectTimeoutText e.message, [Action.inspect, Action.startContainer])
        | .ok _ =>
          executeProjectTail env req
            [Action.inspect, Action.startContainer, Action.settleDelay]

/-- Which branch of the daily-challenge race wins; the raw-chunk collector
there never rejects, so the only outcomes are collection and timeout. -/
inductive TempRace where
  | collected (stdout stderr : String)
  | timeout
deriving DecidableEq

/-- Outcome environment for one `executeCodeInTempContainer` run. -/
structure TempEnv where
  preexists : Bool
  createC : Except DockerErr Unit
  startC : Except DockerErr Unit
  writeExec : Except DockerErr Unit
  removeUnsupported : Except DockerErr Unit
  runExec : Except DockerErr Unit
  race : TempRace
  stopC : Except DockerErr Unit

/-- Modelled from the spec: `getDefaultFileName` lives in
`utils/execution.ts`, which is not among the provided sources. Per spec
section 4.2 the file name is language-specific, and for Java the
`public class` pattern picks the class name, defaulting to `Main`. The
middle argument is the session tag the callers pass; it does not influence
any claim settled here. -/
def getDefaultFileName (language _tag code : String) : String :=
  if language = "java" then javaClassName code ++ ".java"
  else if language = "python" then "main.py"
  else if language = "javascript" then "main.js"
  else if language = "cpp" then "main.cpp"
  else "main.txt"

/-- The run command of `executeCodeInTempContainer`; the language is
compared case-sensitively there, and unsupported languages fall through
to a removal-then-return branch rather than a thrown error. -/
def tempExecCommand (language fileName code : String) : Option String :=
  let filePath := "/tmp/" ++ fileName
  if language = "python" then some ( "python3 -u " ++ filePath)
  else if language = "javascript" then some ( "node " ++ filePath)
  else if language = "cpp" then
    some ( "g++ -std=c++20 " ++ filePath ++ " -o /tmp/a.out && /tmp/a.out")
  else if language = "java" then
    some ( "cd /tmp && javac " ++ fileName ++ " && java -cp /tmp " ++ javaClassName code)
  else none

/-- The catch handler of `executeCodeInTempContainer`: attempt a forced
container removal, then return the message as the error (no timeout
special-casing there). -/
def tempCaught (msg : String) (trace : List Action) : ExecResult × List Action :=
  ({ output := "", error := if msg = "" then "Execution failed" else msg },
    trace ++ [Action.removeContainer])

/-- The daily-challenge `executeCodeInTempContainer(code, language,
input?)`: defensively remove a leftover container, create and start an
ephemeral one, write the source, run the command, race collection against
the 10-second timeout, and tear the container down — via stop-then-remove
on the collected branch, and via the catch handler's forced removal when
any step throws or the timeout wins. -/
def executeCodeInTempContainer (env : TempEnv) (code language : String)
    (input : Option String) : ExecResult × List Action :=
  let t0 := if env.preexists then [Action.inspect, Action.removeContainer]
            else [Action.inspect]
  match env.createC with
  | .error e => tempCaught e.message t0
  | .ok _ =>
    let t1 := t0 ++ [Action.createContainer]
    match env.startC with
    | .error e => tempCaught e.message t1
    | .ok _ =>
      let t2 := t1 ++ [Action.startContainer]
      let fileName := getDefaultFileName language "daily-challenge" code
      let t3 := t2 ++ [Action.writeSource fileName]
      match env.writeExec with
      | .error e => tempCaught e.message t3
      | .ok _ =>
        match tempExecCommand language fileName code with
        | none =>
          match env.removeUnsupported with
          | .ok _ =>
            ({ output := "", error := "Unsupported language" },
              t3 ++ [Action.removeContainer])
          | .error e => tempCaught e.message (t3 ++ [Action.removeContainer])
        | some cmd =>
          let t4 := t3 ++ [Action.execRun cmd]
          match env.runExec with
          | .error e => tempCaught e.message t4
          | .ok _ =>
            let t5 := t4 ++ stdinActions input
            match env.race with
            | .timeout =>
              tempCaught "Execution timeout (10 seconds)"
                (t5 ++ [Action.destroyStream singleRunTimeoutMs])
            | .collected so se =>
              let t6 := t5 ++
                (match env.stopC with
                 | .ok _ => [Action.stopContainer, Action.removeContainer]
                 | .error _ => [Action.stopContainer])
              ({ output := if jsTrim so = "" then noOutputSentinel else jsTrim so,
                 error := jsTrim se }, t6)

/-- A quiz test case. -/
structure TestCase where
  input : String
  expectedOutput : String
  isHidden : Bool
deriving DecidableEq

/-- A per-case result entry pushed by the quiz submit harness. -/
structure TestCaseResult where
  index : Nat
  passed : Bool
  input : String
  actualOutput : String
  error : Option String
deriving DecidableEq

/-- One iteration of the submit harness loop. The outcome of the race of
`executeCode` against the outer 10-second guard is either a resolved
execution result or a thrown error message (outer guard fired, or the
promise rejected); the thrown branch is the handler's catch clause. -/
def runQuizCase (i : Nat) (test : TestCase) (outcome : Except String ExecResult) :
    TestCaseResult :=
  match outcome with
  | .ok er =>
    let actual := if er.error = "" then er.output else er.error
    let passed := er.error = "" && normalize actual = normalize test.expectedOutput
    { index := i
      passed := passed
      input := if test.isHidden then "(hidden)" else test.input
      actualOutput :=
        if test.isHidden then (if passed then "(correct)" else "(incorrect)") else actual
      error := if er.error = "" then none else some er.error }
  | .error msg =>
    { index := i
      passed := false
      input := if test.isHidden then "(hidden)" else test.input
      actualOutput := ""
      error := some (if msg = "" then "Execution failed" else msg) }

/-- The sequential submit loop, indexed from 0; `outcomes i` is the raced
outcome of the `i`-th case. -/
def runQuizTestsAux (outcomes : Nat → Except String ExecResult) :
    Nat → List TestCase → List TestCaseResult
  | _, [] => []
  | i, t :: ts => runQuizCase i t (outcomes i) :: runQuizTestsAux outcomes (i + 1) ts

/-- All per-case results of one submit invocation. -/
def runQuizTests (tests : List TestCase) (outcomes : Nat → Except String ExecResult) :
    List TestCaseResult :=
  runQuizTestsAux outcomes 0 tests

/-- The summary derived by the submit handler: `passed` counts passing
results and `allPassed` is `passed === results.length`. -/
structure QuizSummary where
  total : Nat
  passed : Nat
  allPassed : Bool
deriving DecidableEq

/-- Build the summary from the result list. -/
def quizSummary (results : List TestCaseResult) : QuizSummary :=
  let p := (results.filter fun r => r.passed).length
  { total := results.length, passed := p, allPassed := p = results.length }

/-- The test-case shape check of quiz creation and update:
`!Array.isArray(testCases) || testCases.length === 0` rejects with a 400
before anything is saved. `none` stands for an absent or non-array value. -/
def quizTestCasesAccepted : Option (List TestCase) → Bool
  | none => false
  | some tcs => !tcs.isEmpty

/-- The `code` field of a run-request body as the validator sees it:
absent (or another falsy non-string), a non-string value, or a string. -/
inductive BodyCode where
  | absent : BodyCode
  | nonString : BodyCode
  | str : String → BodyCode
deriving DecidableEq

/-- The body slice `validateCode` reads. -/
structure RunRequestBody where
  code : BodyCode
  language : Option String
deriving DecidableEq

/-- What the middleware does with a request: reject with an HTTP status
and message, or call `next()` exactly once. -/
inductive ValidationOutcome where
  | reject (status : Nat) (msg : String)
  | forward
deriving DecidableEq

/-- The twelve-pattern dangerous-content scan of `validateCode`, on the
case-folded code (all patterns carry the `i` flag). -/
def dangerousPatternHit (code : String) : Bool :=
  let l := code.data.map Char.toLower
  importPat ( "os".data) l || importPat ( "subprocess".data) l ||
  importPat ( "sys".data) l || importPat ( "socket".data) l ||
  importPat ( "urllib".data) l || importPat ( "requests".data) l ||
  callPat ( "exec".data) l || callPat ( "eval".data) l || callPat ( "open".data) l ||
  litAnywhere ( "__import__".data) l ||
  wordPat ( "file".data) l || wordPat ( "dir".data) l

/-- The `validateCode` middleware: reject falsy or non-string code, code
over 50,000 characters, code hitting a dangerous pattern, or a truthy
language that is not `python` case-insensitively; otherwise forward. -/
def validateCode (body : RunRequestBody) : ValidationOutcome :=
  match body.code with
  | .absent => .reject 400 "Code is required and must be a string"
  | .nonString => .reject 400 "Code is required and must be a string"
  | .str code =>
    if code = "" then .reject 400 "Code is required and must be a string"
    else if 50000 < code.length then
      .reject 400 "Code is too long (maximum 50KB allowed)"
    else if dangerousPatternHit code then
      .reject 400 "Code contains potentially dangerous operations that are not allowed"
    else
      match body.language with
      | none => .forward
      | some lang =>
        if lang = "" then .forward
        else if jsToLower lang = "python" then .forward
        else
          .reject 400
            ( "Language " ++ lang ++ " is not supported. Supported languages: python")

/-- `readUInt32BE`: big-endian 32-bit read of four header bytes. -/
def readU32BE (b0 b1 b2 b3 : Nat) : Nat :=
  ((b0 * 256 + b1) * 256 + b2) * 256 + b3

/-- The per-chunk scanning loop of `demuxStream`: from the current offset,
stop when fewer than 8 bytes remain; otherwise read the 1-byte stream-type
tag and the 4-byte big-endian payload length at header bytes 4-7, append
the payload to the matching buffer when it lies fully within the chunk,
and advance the offset by `8 + payloadSize`. -/
def demuxLoop (chunk : List Nat) (offset : Nat) (so se : List Nat) : List Nat × List Nat :=
  if offset < chunk.length then
    if chunk.length - offset < 8 then (so, se)
    else
      let streamType := chunk.getD offset 0
      let payloadSize := readU32BE (chunk.getD (offset + 4) 0) (chunk.getD (offset + 5) 0)
        (chunk.getD (offset + 6) 0) (chunk.getD (offset + 7) 0)
      if 0 < payloadSize ∧ offset + 8 + payloadSize ≤ chunk.length then
        let payload := (chunk.drop (offset + 8)).take payloadSize
        if streamType = 1 then demuxLoop chunk (offset + 8 + payloadSize) (so ++ payload) se
        else if streamType = 2 then demuxLoop chunk (offset + 8 + payloadSize) so (se ++ payload)
        else demuxLoop chunk (offset + 8 + payloadSize) so se
      else demuxLoop chunk (offset + 8 + payloadSize) so se
  else (so, se)
termination_by chunk.length - offset
decreasing_by all_goals omega

/-- `demuxStream`: process each received chunk through the scanning loop,
and on stream end resolve with the two accumulated buffers (modelled at
the byte level; the source accumulates the UTF-8 decoding of the same
bytes). -/
def demuxStream (chunks : List (List Nat)) : List Nat × List Nat :=
  chunks.foldl (fun acc c => demuxLoop c 0 acc.1 acc.2) ([], [])

/-- Big-endian encoding of a 32-bit length, for building well-formed frames. -/
def encodeU32BE (n : Nat) : List Nat :=
  [n / 16777216 % 256, n / 65536 % 256, n / 256 % 256, n % 256]

/-- A well-formed multiplexed frame for a `(tag, payload)` pair: the tag
byte, three reserved zero bytes, the big-endian payload length, then the
payload. -/
def encodeFrame (f : Nat × List Nat) : List Nat :=
  f.1 :: 0 :: 0 :: 0 :: (encodeU32BE f.2.length ++ f.2)

/-- A chunk consisting of complete well-formed frames, in order. -/
def encodeFrames : List (Nat × List Nat) → List Nat
  | [] => []
  | f :: fs => encodeFrame f ++ encodeFrames fs

/-- In-order concatenation of the payloads carrying a given tag. -/
def framesOut (t : Nat) : List (Nat × List Nat) → List Nat
  | [] => []
  | f :: fs => (if f.1 = t then f.2 else []) ++ framesOut t fs

/-- All Docker steps of an `executeCode` run succeed: the inspect resolves
(and the container is running, or the start succeeds), and both execs
start. -/
def ExecEnvOk (env : ExecEnv) : Prop :=
  (env.inspect = Except.ok ⟨true⟩ ∨
    (env.inspect = Except.ok ⟨false⟩ ∧ env.startC = Except.ok ())) ∧
  env.writeExec = Except.ok () ∧ env.runExec = Except.ok ()

/-- All Docker steps of an `executeProject` run succeed. -/
def ProjectEnvOk (env : ProjectEnv) : Prop :=
  (env.inspect = Except.ok ⟨true⟩ ∨
    (env.inspect = Except.ok ⟨false⟩ ∧ env.startC = Except.ok ())) ∧
  env.mkdirExec = Except.ok () ∧ (∀ i, env.writes i = Except.ok ()) ∧
  env.runExec = Except.ok ()

/-- All Docker steps of an `executeCodeInTempContainer` run up to the race
succeed. -/
def TempEnvOk (env : TempEnv) : Prop :=
  env.createC = Except.ok () ∧ env.startC = Except.ok () ∧
  env.writeExec = Except.ok () ∧ env.runExec = Except.ok ()

/-- Trim of trailing whitespace only, following the words of spec section
4.4 step 7 ("trim trailing whitespace from both streams"); kept distinct
from `jsTrim`, which also trims leading whitespace as the source does. -/
def trimTrailingOnly (s : String) : String :=
  String.mk (s.data.reverse.dropWhile wsChar).reverse

/-- The non-timeout result shaping as the spec describes it (for
comparison with the source): trailing trim on both streams, with the
sentinel substituted exactly when the trimmed stdout is empty and no
error occurred. -/
def specClaimedOutcome (stdout stderr : String) : ExecResult :=
  { output :=
      if trimTrailingOnly stdout = "" ∧ trimTrailingOnly stderr = "" then noOutputSentinel
      else trimTrailingOnly stdout
    error := trimTrailingOnly stderr }

theorem readU32BE_encode (n : Nat) (h : n < 4294967296) :
    readU32BE (n / 16777216 % 256) (n / 65536 % 256) (n / 256 % 256) (n % 256) = n := by
  unfold readU32BE; omega

theorem demuxLoop_stop (chunk : List Nat) (offset : Nat) (so se : List Nat)
    (h : chunk.length - offset < 8) : demuxLoop chunk offset so se = (so, se) := by
  rw [demuxLoop]
  by_cases h1 : offset < chunk.length
  · rw [if_pos h1, if_pos (by omega)]
  · rw [if_neg h1]

theorem getD_shift : ∀ (pre rest : List Nat) (k : Nat),
    (pre ++ rest).getD (pre.length + k) 0 = rest.getD k 0
  | [], rest, k => by simp
  | a :: l, rest, k => by
    have h : (a :: l).length + k = (l.length + k) + 1 := by
      simp only [List.length_cons]; omega
    rw [List.cons_append, h, List.getD_cons_succ]
    exact getD_shift l rest k

theorem drop_shift : ∀ (pre rest : List Nat) (k : Nat),
    (pre ++ rest).drop (pre.length + k) = rest.drop k
  | [], rest, k => by simp
  | a :: l, rest, k => by
    have h : (a :: l).length + k = (l.length + k) + 1 := by
      simp only [List.length_cons]; omega
    rw [List.cons_append, h, List.drop_succ_cons]
    exact drop_shift l rest k

theorem demuxLoop_append (pre rest : List Nat) (off : Nat) (so se : List Nat) :
    demuxLoop (pre ++ rest) (pre.length + off) so se = demuxLoop rest off so se := by
  have H : ∀ k off so se, rest.length - off ≤ k →
      demuxLoop (pre ++ rest) (pre.length + off) so se = demuxLoop rest off so se := by
    intro k
    induction k with
    | zero =>
      intro off so se h0
      rw [demuxLoop_stop _ _ _ _ (by simp only [List.length_append]; omega),
        demuxLoop_stop _ _ _ _ (by omega)]
    | succ k ih =>
      intro off so se hk
      by_cases hoff : off < rest.length
      · by_cases h8 : rest.length - off < 8
        · rw [demuxLoop_stop _ _ _ _ (by simp only [List.length_append]; omega),
            demuxLoop_stop _ _ _ _ (by omega)]
        · rw [demuxLoop, demuxLoop]
          rw [if_pos (show pre.length + off < (pre ++ rest).length by
                simp only [List.length_append]; omega),
            if_pos hoff]
          rw [if_neg (show ¬((pre ++ rest).length - (pre.length + off) < 8) by
                simp only [List.length_append]; omega),
            if_neg h8]
          have e0 : pre.length + off + 4 = pre.length + (off + 4) := by omega
          have e1 : pre.length + off + 5 = pre.length + (off + 5) := by omega
          have e2 : pre.length + off + 6 = pre.length + (off + 6) := by omega
          have e3 : pre.length + off + 7 = pre.length + (off + 7) := by omega
          rw [e0, e1, e2, e3, getD_shift, getD_shift, getD_shift, getD_shift, getD_shift]
          set ps := readU32BE (rest.getD (off + 4) 0) (rest.getD (off + 5) 0)
            (rest.getD (off + 6) 0) (rest.getD (off + 7) 0) with hps
          have hmeas : rest.length - (off + 8 + ps) ≤ k := by omega
          have e4 : pre.length + off + 8 = pre.length + (off + 8) := by omega
          have hrec : pre.length + (off + 8) + ps = pre.length + (off + 8 + ps) := by omega
          have hcond : (0 < ps ∧ pre.length + (off + 8 + ps) ≤ (pre ++ rest).length) ↔
              (0 < ps ∧ off + 8 + ps ≤ rest.length) := by
            simp only [List.length_append]; omega
          simp only [e4, drop_shift, hrec]
          simp only [hcond]
          by_cases hp : 0 < ps ∧ off + 8 + ps ≤ rest.length
          · rw [if_pos hp, if_pos hp]
            by_cases ht1 : rest.getD off 0 = 1
            · rw [if_pos ht1, if_pos ht1]
              exact ih _ _ _ hmeas
            · rw [if_neg ht1, if_neg ht1]
              by_cases ht2 : rest.getD off 0 = 2
              · rw [if_pos ht2, if_pos ht2]
                exact ih _ _ _ hmeas
              · rw [if_neg ht2, if_neg ht2]
                exact ih _ _ _ hmeas
          · rw [if_neg hp, if_neg hp]
            exact ih _ _ _ hmeas
      · rw [demuxLoop_stop _ _ _ _ (by simp only [List.length_append]; omega),
          demuxLoop_stop _ _ _ _ (by omega)]
  exact H (rest.length - off) off so se (le_refl _)



theorem take_len_append : ∀ (a b : List Nat), (a ++ b).take a.length = a
  | [], _ => by simp
  | x :: l, b => by simp [take_len_append l b]

theorem demuxLoop_frame_step (tag : Nat) (payload rest so se : List Nat)
    (hlen : payload.length < 4294967296) :
    demuxLoop (encodeFrame (tag, payload) ++ rest) 0 so se =
      demuxLoop rest 0 (so ++ (if tag = 1 then payload else []))
        (se ++ (if tag = 2 then payload else [])) := by
  have hC : encodeFrame (tag, payload) ++ rest =
      tag :: 0 :: 0 :: 0 :: (payload.length / 16777216 % 256) ::
        (payload.length / 65536 % 256) :: (payload.length / 256 % 256) ::
        (payload.length % 256) :: (payload ++ rest) := by
    simp [encodeFrame, encodeU32BE]
  have hlenC : (encodeFrame (tag, payload) ++ rest).length =
      8 + (payload.length + rest.length) := by
    simp [hC]; omega
  rw [demuxLoop]
  rw [if_pos (show 0 < (encodeFrame (tag, payload) ++ rest).length by rw [hlenC]; omega)]
  rw [if_neg (show ¬((encodeFrame (tag, payload) ++ rest).length - 0 < 8) by
    rw [hlenC]; omega)]
  simp only [hC, Nat.zero_add]
  have hget4 :
      (tag :: 0 :: 0 :: 0 :: (payload.length / 16777216 % 256) ::
        (payload.length / 65536 % 256) :: (payload.length / 256 % 256) ::
        (payload.length % 256) :: (payload ++ rest)).getD 4 0 =
        payload.length / 16777216 % 256 := by simp
  have hget5 :
      (tag :: 0 :: 0 :: 0 :: (payload.length / 16777216 % 256) ::
        (payload.length / 65536 % 256) :: (payload.length / 256 % 256) ::
        (payload.length % 256) :: (payload ++ rest)).getD 5 0 =
        payload.length / 65536 % 256 := by simp
  have hget6 :
      (tag :: 0 :: 0 :: 0 :: (payload.length / 16777216 % 256) ::
        (payload.length / 65536 % 256) :: (payload.length / 256 % 256) ::
        (payload.length % 256) :: (payload ++ rest)).getD 6 0 =
        payload.length / 256 % 256 := by simp
  have hget7 :
      (tag :: 0 :: 0 :: 0 :: (payload.length / 16777216 % 256) ::
        (payload.length / 65536 % 256) :: (payload.length / 256 % 256) ::
        (payload.length % 256) :: (payload ++ rest)).getD 7 0 =
        payload.length % 256 := by simp
  have hget0 :
      (tag :: 0 :: 0 :: 0 :: (payload.length / 16777216 % 256) ::
        (payload.length / 65536 % 256) :: (payload.length / 256 % 256) ::
        (payload.length % 256) :: (payload ++ rest)).getD 0 0 = tag := by simp
  rw [hget0, hget4, hget5, hget6, hget7, readU32BE_encode payload.length hlen]
  have hcond : (0 < payload.length ∧ 8 + payload.length ≤
      (tag :: 0 :: 0 :: 0 :: (payload.length / 16777216 % 256) ::
        (payload.length / 65536 % 256) :: (payload.length / 256 % 256) ::
        (payload.length % 256) :: (payload ++ rest)).length) ↔ 0 < payload.length := by
    simp; omega
  have hdrop : List.take payload.length (List.drop 8
      (tag :: 0 :: 0 :: 0 :: (payload.length / 16777216 % 256) ::
        (payload.length / 65536 % 256) :: (payload.length / 256 % 256) ::
        (payload.length % 256) :: (payload ++ rest))) = payload := by
    simp [take_len_append]
  have happ : ∀ X Y : List Nat,
      demuxLoop (tag :: 0 :: 0 :: 0 :: (payload.length / 16777216 % 256) ::
        (payload.length / 65536 % 256) :: (payload.length / 256 % 256) ::
        (payload.length % 256) :: (payload ++ rest)) (8 + payload.length) X Y =
      demuxLoop rest 0 X Y := by
    intro X Y
    have h1 := demuxLoop_append (tag :: 0 :: 0 :: 0 ::
      (payload.length / 16777216 % 256) :: (payload.length / 65536 % 256) ::
      (payload.length / 256 % 256) :: (payload.length % 256) :: payload) rest 0 X Y
    have h2 : (tag :: 0 :: 0 :: 0 :: (payload.length / 16777216 % 256) ::
      (payload.length / 65536 % 256) :: (payload.length / 256 % 256) ::
      (payload.length % 256) :: payload).length + 0 = 8 + payload.length := by
      simp; omega
    rw [h2] at h1
    simpa using h1
  simp only [hcond, hdrop]
  by_cases hp : 0 < payload.length
  · rw [if_pos hp]
    by_cases ht1 : tag = 1
    · rw [if_pos ht1, happ]
      simp [ht1]
    · rw [if_neg ht1]
      by_cases ht2 : tag = 2
      · rw [if_pos ht2, happ]
        simp [ht1, ht2]
      · rw [if_neg ht2, happ]
        simp [ht1, ht2]
  · rw [if_neg hp]
    have hpl : payload = [] := by
      have : payload.length = 0 := by omega
      exact List.eq_nil_of_length_eq_zero this
    rw [happ]
    simp [hpl]



theorem demuxLoop_encode : ∀ (frames : List (Nat × List Nat)) (so se : List Nat),
    (∀ f ∈ frames, f.2.length < 4294967296) →
    demuxLoop (encodeFrames frames) 0 so se =
      (so ++ framesOut 1 frames, se ++ framesOut 2 frames) := by
  intro frames
  induction frames with
  | nil =>
    intro so se _
    rw [encodeFrames, demuxLoop]
    simp [framesOut]
  | cons f fs ih =>
    intro so se h
    obtain ⟨tag, payload⟩ := f
    have hf : payload.length < 4294967296 := h (tag, payload) (by simp)
    rw [encodeFrames, demuxLoop_frame_step tag payload (encodeFrames fs) so se hf,
      ih _ _ (fun g hg => h g (by simp [hg]))]
    simp [framesOut, List.append_assoc]


theorem execCatch_spec (t m : String) (ht : t ≠ "") :
    (execCatch t m).output = "" ∧ (execCatch t m).error ≠ "" := by
  unfold execCatch
  split_ifs with h1 h2
  · exact ⟨rfl, ht⟩
  · exact ⟨rfl, by decide⟩
  · exact ⟨rfl, h2⟩

theorem persistentContainers_cases {l cname : String}
    (h : persistentContainers l = some cname) :
    l = "python" ∨ l = "javascript" ∨ l = "java" ∨ l = "cpp" ∨ l = "c++" := by
  unfold persistentContainers at h
  split_ifs at h with h1 h2 h3 h4 h5
  · exact Or.inl h1
  · exact Or.inr (Or.inl h2)
  · exact Or.inr (Or.inr (Or.inl h3))
  · exact Or.inr (Or.inr (Or.inr (Or.inl h4)))
  · exact Or.inr (Or.inr (Or.inr (Or.inr h5)))

theorem getExecutionCommand_ok {l cname : String} (f : String)
    (h : persistentContainers (jsToLower l) = some cname) :
    ∃ cmd, getExecutionCommand l f = Except.ok cmd := by
  rcases persistentContainers_cases h with h1 | h1 | h1 | h1 | h1 <;>
    exact ⟨_, by unfold getExecutionCommand; rw [h1]; rfl⟩

theorem executeCode_dispatch (env : ExecEnv) (c l : String) (i : Option String)
    {cname : String} (hsup : persistentContainers (jsToLower l) = some cname)
    (hins : env.inspect = Except.ok ⟨true⟩ ∨
      (env.inspect = Except.ok ⟨false⟩ ∧ env.startC = Except.ok ())) :
    executeCode env c l i = executeCodeTail env c l i [Action.inspect] ∨
    executeCode env c l i =
      executeCodeTail env c l i
        [Action.inspect, Action.startContainer, Action.settleDelay] := by
  rcases hins with h1 | ⟨h0, hst⟩
  · left; simp [executeCode, hsup, h1]
  · right; simp [executeCode, hsup, h0, hst]

theorem executeCodeTail_timeout (env : ExecEnv) (c l : String) (i : Option String)
    (trace : List Action) (cmd : String)
    (hw : env.writeExec = Except.ok ())
    (hcmd : getExecutionCommand l (fileNameFor l c) = Except.ok cmd)
    (hr : env.runExec = Except.ok ()) (hto : env.race = RaceOutcome.timeout) :
    executeCodeTail env c l i trace =
      (⟨"", singleRunTimeoutText⟩,
        trace ++ [Action.writeSource (fileNameFor l c)] ++ [Action.execRun cmd] ++
          stdinActions i ++ [Action.destroyStream singleRunTimeoutMs]) := by
  simp [executeCodeTail, hw, hcmd, hr, hto, execCatch,
    show strIncludes "Execution timeout (10 seconds)" "timeout" = true from by decide]

theorem executeCodeTail_collected (env : ExecEnv) (c l : String) (i : Option String)
    (trace : List Action) (cmd : String) (so se : String)
    (hw : env.writeExec = Except.ok ())
    (hcmd : getExecutionCommand l (fileNameFor l c) = Except.ok cmd)
    (hr : env.runExec = Except.ok ())
    (hc : env.race = RaceOutcome.collected so se) :
    executeCodeTail env c l i trace =
      (⟨if jsTrim so = "" then noOutputSentinel else jsTrim so, jsTrim se⟩,
        trace ++ [Action.writeSource (fileNameFor l c)] ++ [Action.execRun cmd] ++
          stdinActions i ++ [Action.cleanupFiles (cleanupCmdFor (fileNameFor l c))]) := by
  simp [executeCodeTail, hw, hcmd, hr, hc]



/-- C1 (counterexample): for a hidden test case whose raced execution
throws (for instance when the outer 10-second guard fires), the recorded
`actualOutput` is the empty string, not `(correct)` or `(incorrect)`,
although `input` is still `(hidden)`. -/
theorem hidden_case_error_branch_counterexample :
    (runQuizCase 0 ⟨"5", "8", true⟩
      (Except.error "Test execution timeout (10 seconds)")).input = "(hidden)" ∧
    (runQuizCase 0 ⟨"5", "8", true⟩
      (Except.error "Test execution timeout (10 seconds)")).actualOutput = "" ∧
    (runQuizCase 0 ⟨"5", "8", true⟩
      (Except.error "Test execution timeout (10 seconds)")).actualOutput ≠ "(correct)" ∧
    (runQuizCase 0 ⟨"5", "8", true⟩
      (Except.error "Test execution timeout (10 seconds)")).actualOutput ≠ "(incorrect)" := by
  refine ⟨rfl, rfl, by decide, by decide⟩

/-- C1 (amended): for every hidden test case the recorded `input` is
exactly `(hidden)`; on the resolved branch the recorded `actualOutput` is
one of `(correct)`/`(incorrect)`, while on the thrown branch (per-case
exception or outer timeout guard) it is the empty string — in every case
never the raw expected or actual text. -/
theorem hidden_case_redaction (i : Nat) (t : TestCase) (oc : Except String ExecResult)
    (h : t.isHidden = true) :
    (runQuizCase i t oc).input = "(hidden)" ∧
    (∀ er, oc = Except.ok er → (runQuizCase i t oc).actualOutput = "(correct)" ∨
      (runQuizCase i t oc).actualOutput = "(incorrect)") ∧
    (∀ m, oc = Except.error m → (runQuizCase i t oc).actualOutput = "") := by
  refine ⟨?_, ?_, ?_⟩
  · cases oc <;> simp [runQuizCase, h]
  · rintro er rfl
    simp only [runQuizCase, h, if_true]
    split_ifs <;> simp
  · rintro m rfl
    simp [runQuizCase, h]

/-- C1 (witness). -/
theorem hidden_case_redaction_witness :
    (runQuizCase 0 ⟨"5", "8", true⟩ (Except.ok ⟨"8", ""⟩)).input = "(hidden)" ∧
    ((runQuizCase 0 ⟨"5", "8", true⟩ (Except.ok ⟨"8", ""⟩)).actualOutput = "(correct)" ∨
      (runQuizCase 0 ⟨"5", "8", true⟩ (Except.ok ⟨"8", ""⟩)).actualOutput = "(incorrect)") := by
  have h := hidden_case_redaction 0 ⟨"5", "8", true⟩ (Except.ok ⟨"8", ""⟩) rfl
  exact ⟨h.1, h.2.1 ⟨"8", ""⟩ rfl⟩

/-- C5: a resolved test case passes exactly when the execution reported no
error and the normalized stdout equals the normalized expectation; the
output recorded for a non-hidden case is the error text when non-empty and
the stdout otherwise; and `normalize` collapses CRLF to LF and trims
surrounding whitespace, identifying `8\r\n`, `8\n` and ` 8 `. -/
theorem quiz_pass_criterion :
    (∀ (i : Nat) (t : TestCase) (er : ExecResult),
      (runQuizCase i t (Except.ok er)).passed = true ↔
        (er.error = "" ∧ normalize er.output = normalize t.expectedOutput)) ∧
    (∀ (i : Nat) (t : TestCase) (er : ExecResult), t.isHidden = false →
      (runQuizCase i t (Except.ok er)).actualOutput =
        (if er.error = "" then er.output else er.error)) ∧
    (normalize "8\r\n" = normalize "8\n" ∧ normalize "8\n" = normalize " 8 " ∧
      normalize " 8 " = "8") := by
  refine ⟨?_, ?_, by decide, by decide, by decide⟩
  · intro i t er
    simp only [runQuizCase, Bool.and_eq_true, decide_eq_true_eq]
    constructor
    · rintro ⟨h1, h2⟩
      exact ⟨h1, by simpa [h1] using h2⟩
    · rintro ⟨h1, h2⟩
      exact ⟨h1, by simpa [h1] using h2⟩
  · intro i t er h
    simp [runQuizCase, h]

/-- C5 (witness). -/
theorem quiz_pass_criterion_witness :
    ((runQuizCase 0 ⟨"5 3", "8", false⟩ (Except.ok ⟨"8\r\n", ""⟩)).passed = true ↔
      (("" : String) = "" ∧ normalize "8\r\n" = normalize "8")) ∧
    (runQuizCase 0 ⟨"5 3", "8", false⟩ (Except.ok ⟨"8\r\n", ""⟩)).actualOutput =
      (if ("" : String) = "" then "8\r\n" else "") := by
  exact ⟨quiz_pass_criterion.1 0 ⟨"5 3", "8", false⟩ ⟨"8\r\n", ""⟩,
    quiz_pass_criterion.2.1 0 ⟨"5 3", "8", false⟩ ⟨"8\r\n", ""⟩ rfl⟩

/-- C7: the demultiplexer stops scanning a chunk as soon as fewer than 8
bytes remain past the offset, and for a stream delivered as one chunk of
complete well-formed frames it resolves with the in-order concatenation of
the type-1 payloads as stdout and of the type-2 payloads as stderr. -/
theorem demux_frames_decoded :
    (∀ (chunk : List Nat) (offset : Nat) (so se : List Nat),
      chunk.length - offset < 8 → demuxLoop chunk offset so se = (so, se)) ∧
    (∀ frames : List (Nat × List Nat),
      (∀ f ∈ frames, f.1 < 256 ∧ f.2.length < 4294967296) →
      demuxStream [encodeFrames frames] =
        (framesOut 1 frames, framesOut 2 frames)) := by
  constructor
  · exact demuxLoop_stop
  · intro frames h
    have h1 := demuxLoop_encode frames [] [] (fun f hf => (h f hf).2)
    simpa [demuxStream] using h1

/-- C7 (witness). -/
theorem demux_frames_decoded_witness :
    demuxLoop [9, 9, 9] 0 [] [] = ([], []) ∧
    demuxStream [encodeFrames [(1, [72, 73]), (2, [69]), (1, [33])]] =
      (framesOut 1 [(1, [72, 73]), (2, [69]), (1, [33])],
        framesOut 2 [(1, [72, 73]), (2, [69]), (1, [33])]) ∧
    framesOut 1 [(1, [72, 73]), (2, [69]), (1, [33])] = [72, 73, 33] ∧
    framesOut 2 [(1, [72, 73]), (2, [69]), (1, [33])] = [69] := by
  exact ⟨demux_frames_decoded.1 [9, 9, 9] 0 [] [] (by decide),
    demux_frames_decoded.2 _ (by decide), by decide, by decide⟩

/-- C8 (counterexample): run against an empty test-case list, the submit
harness itself does produce a summary with `total = 0` that counts as all
tests passed — no upfront validation error guards that path. -/
theorem empty_testcases_allpassed_counterexample :
    quizSummary (runQuizTests [] (fun _ => Except.ok ⟨"", ""⟩)) =
      ⟨0, 0, true⟩ := by
  rfl

/-- C8 (amended): the empty-test-case validation lives in quiz creation
and update (an absent, non-array or empty `testCases` is rejected with a
400 before saving), so API-created quizzes always carry at least one test
case; the submit harness itself performs no such check and on an empty
list yields `total = 0`, `passed = 0`, `allPassed = true`. -/
theorem empty_testcases_validation :
    (quizTestCasesAccepted none = false ∧ quizTestCasesAccepted (some []) = false) ∧
    (∀ tcs : List TestCase, tcs ≠ [] → quizTestCasesAccepted (some tcs) = true) ∧
    (∀ outcomes, quizSummary (runQuizTests [] outcomes) = ⟨0, 0, true⟩) := by
  refine ⟨⟨rfl, rfl⟩, ?_, fun _ => rfl⟩
  intro tcs h
  cases tcs with
  | nil => exact absurd rfl h
  | cons a t => rfl

/-- C8 (witness). -/
theorem empty_testcases_validation_witness :
    quizTestCasesAccepted (some [⟨"5", "8", false⟩]) = true := by
  exact empty_testcases_validation.2.1 [⟨"5", "8", false⟩] (by decide)


theorem stdinActions_clean (i : Option String) :
    ((stdinActions i).all fun a => !a.isCleanupFiles) = true := by
  cases i with
  | none => rfl
  | some s => by_cases h : s = "" <;> simp [stdinActions, h, Action.isCleanupFiles]

theorem stdinActions_no_cleanup (i : Option String) :
    ∀ x ∈ stdinActions i, x.isCleanupFiles = false := by
  intro x hx
  cases i with
  | none => cases hx
  | some s =>
    by_cases h : s = "" <;> simp [stdinActions, h] at hx
    subst hx
    rfl

theorem append_ne_left (a b : String) (ha : a ≠ "") : a ++ b ≠ "" := by
  intro h
  have hl := congrArg String.length h
  rw [String.length_append] at hl
  rw [show ("" : String).length = 0 from rfl] at hl
  have h0 : a.length = 0 := by omega
  exact ha (String.ext (List.eq_nil_of_length_eq_zero h0))

theorem executeCodeTail_no_silent (env : ExecEnv) (c l : String) (i : Option String)
    (trace : List Action) :
    (executeCodeTail env c l i trace).1.output = "" →
      (executeCodeTail env c l i trace).1.error ≠ "" := by
  rcases hw : env.writeExec with e | u
  · simp only [executeCodeTail, hw]
    exact fun _ => (execCatch_spec singleRunTimeoutText e.message (by decide)).2
  · rcases hcmd : getExecutionCommand l (fileNameFor l c) with msg | cmd
    · simp only [executeCodeTail, hw, hcmd]
      exact fun _ => (execCatch_spec singleRunTimeoutText msg (by decide)).2
    · rcases hr : env.runExec with e | u
      · simp only [executeCodeTail, hw, hcmd, hr]
        exact fun _ => (execCatch_spec singleRunTimeoutText e.message (by decide)).2
      · rcases hrace : env.race with ⟨so, se⟩ | _ | msg
        · simp only [executeCodeTail, hw, hcmd, hr, hrace]
          intro h
          by_cases hso : jsTrim so = ""
          · rw [if_pos hso] at h
            exact absurd h (by decide)
          · rw [if_neg hso] at h
            exact absurd h hso
        · simp only [executeCodeTail, hw, hcmd, hr, hrace]
          exact fun _ =>
            (execCatch_spec singleRunTimeoutText "Execution timeout (10 seconds)"
              (by decide)).2
        · simp only [executeCodeTail, hw, hcmd, hr, hrace]
          exact fun _ => (execCatch_spec singleRunTimeoutText msg (by decide)).2

theorem executeCode_no_silent (env : ExecEnv) (c l : String) (i : Option String) :
    (executeCode env c l i).1.output = "" → (executeCode env c l i).1.error ≠ "" := by
  rcases hsup : persistentContainers (jsToLower l) with _ | cname
  · simp only [executeCode, hsup]
    exact fun _ => append_ne_left "Unsupported language: " l (by decide)
  · rcases hins : env.inspect with e | info
    · by_cases h404 : e.statusCode = some 404
      · simp only [executeCode, hsup, hins, if_pos h404]
        exact fun _ =>
          append_ne_left "Container " (cname ++ " not found. Please run: docker-compose up -d")
            (by decide)
      · simp only [executeCode, hsup, hins, if_neg h404]
        exact fun _ => (execCatch_spec singleRunTimeoutText e.message (by decide)).2
    · rcases info with ⟨running⟩
      cases running with
      | true =>
        simp only [executeCode, hsup, hins, if_true]
        exact executeCodeTail_no_silent env c l i _
      | false =>
        rcases hst : env.startC with e | u
        · simp only [executeCode, hsup, hins, hst]
          exact fun _ => (execCatch_spec singleRunTimeoutText e.message (by decide)).2
        · simp only [executeCode, hsup, hins, hst]
          exact executeCodeTail_no_silent env c l i _

theorem writeProjectFiles_ok (writes : Nat → Except DockerErr Unit)
    (h : ∀ i, writes i = Except.ok ()) :
    ∀ (n : Nat) (files : List ProjectFile),
      writeProjectFiles writes n files =
        (files.map fun f => Action.writeSource f.name, none) := by
  intro n files
  induction files generalizing n with
  | nil => rfl
  | cons f rest ih => simp [writeProjectFiles, h n, ih (n + 1)]

theorem executeProject_dispatch (env : ProjectEnv) (req : ProjectExecutionRequest)
    {cname : String}
    (hsup : persistentContainers (jsToLower req.language) = some cname)
    (hins : env.inspect = Except.ok ⟨true⟩ ∨
      (env.inspect = Except.ok ⟨false⟩ ∧ env.startC = Except.ok ())) :
    executeProject env req = executeProjectTail env req [Action.inspect] ∨
    executeProject env req =
      executeProjectTail env req
        [Action.inspect, Action.startContainer, Action.settleDelay] := by
  rcases hins with h1 | ⟨h0, hst⟩
  · left; simp [executeProject, hsup, h1]
  · right; simp [executeProject, hsup, h0, hst]

theorem executeProjectTail_timeout (env : ProjectEnv) (req : ProjectExecutionRequest)
    (trace : List Action) (cmd : String)
    (hmk : env.mkdirExec = Except.ok ()) (hwr : ∀ i, env.writes i = Except.ok ())
    (hcmd : getExecutionCommand req.language req.mainFile = Except.ok cmd)
    (hr : env.runExec = Except.ok ()) (hto : env.race = RaceOutcome.timeout) :
    (executeProjectTail env req trace).1 = ⟨"", projectTimeoutText⟩ ∧
    Action.destroyStream projectTimeoutMs ∈ (executeProjectTail env req trace).2 := by
  by_cases hds : (dirsOf req.files).isEmpty <;>
    simp [executeProjectTail, hds, hmk, writeProjectFiles_ok env.writes hwr, hcmd, hr,
      hto, execCatch,
      show strIncludes "Execution timeout (15 seconds)" "timeout" = true from by decide]

theorem executeProjectTail_collected (env : ProjectEnv) (req : ProjectExecutionRequest)
    (trace : List Action) (cmd : String) (so se : String)
    (hmk : env.mkdirExec = Except.ok ()) (hwr : ∀ i, env.writes i = Except.ok ())
    (hcmd : getExecutionCommand req.language req.mainFile = Except.ok cmd)
    (hr : env.runExec = Except.ok ())
    (hc : env.race = RaceOutcome.collected so se) :
    (executeProjectTail env req trace).1 =
      ⟨if jsTrim so = "" then noOutputSentinel else jsTrim so, jsTrim se⟩ := by
  by_cases hds : (dirsOf req.files).isEmpty <;>
    simp [executeProjectTail, hds, hmk, writeProjectFiles_ok env.writes hwr, hcmd, hr, hc]


theorem persistentContainers_none_iff (l : String) :
    persistentContainers l = none ↔
      l ∉ ["python", "javascript", "java", "cpp", "c++"] := by
  constructor
  · intro h hmem
    fin_cases hmem <;> exact absurd h (by decide)
  · intro hnot
    unfold persistentContainers
    split_ifs with h1 h2 h3 h4 h5
    · exact absurd (by simp [h1]) hnot
    · exact absurd (by simp [h2]) hnot
    · exact absurd (by simp [h3]) hnot
    · exact absurd (by simp [h4]) hnot
    · exact absurd (by simp [h5]) hnot
    · rfl

/-- C9: for a language whose lowercased form is outside the supported set,
`executeCode` immediately returns the unsupported-language error result
with an empty action trace — no container is inspected, created, started
or exec'd and no code is written; and the container lookup fails exactly
on that set. -/
theorem unsupported_language_fails_fast :
    (∀ (env : ExecEnv) (c l : String) (i : Option String),
      jsToLower l ∉ ["python", "javascript", "java", "cpp", "c++"] →
      executeCode env c l i =
        ({ output := "", error := "Unsupported language: " ++ l }, [])) ∧
    (∀ l : String, persistentContainers l = none ↔
      l ∉ ["python", "javascript", "java", "cpp", "c++"]) := by
  constructor
  · intro env c l i hl
    have hnone : persistentContainers (jsToLower l) = none :=
      (persistentContainers_none_iff _).mpr hl
    simp [executeCode, hnone]
  · exact persistentContainers_none_iff

/-- C9 (witness). -/
theorem unsupported_language_fails_fast_witness :
    executeCode ⟨Except.ok ⟨true⟩, Except.ok (), Except.ok (), Except.ok (),
        RaceOutcome.collected "" "", Except.ok ()⟩ "puts 1" "ruby" none =
      ({ output := "", error := "Unsupported language: ruby" }, []) := by
  exact unsupported_language_fails_fast.1 _ "puts 1" "ruby" none (by decide)

/-- C4: whenever the timeout branch of the race wins, `executeCode` and
`executeProject` destroy the stream and return an empty stdout with the
fixed timed-out message as stderr; the budgets are 10000 ms for the single
run and 15000 ms for the multi-file run, and both messages contain a
timed-out marker. -/
theorem timeout_branch_result :
    (∀ (env : ExecEnv) (c l : String) (i : Option String) (cname : String),
      persistentContainers (jsToLower l) = some cname → ExecEnvOk env →
      env.race = RaceOutcome.timeout →
      (executeCode env c l i).1 = ⟨"", singleRunTimeoutText⟩ ∧
      Action.destroyStream singleRunTimeoutMs ∈ (executeCode env c l i).2) ∧
    (∀ (env : ProjectEnv) (req : ProjectExecutionRequest) (cname : String),
      persistentContainers (jsToLower req.language) = some cname →
      ProjectEnvOk env → env.race = RaceOutcome.timeout →
      (executeProject env req).1 = ⟨"", projectTimeoutText⟩ ∧
      Action.destroyStream projectTimeoutMs ∈ (executeProject env req).2) ∧
    (singleRunTimeoutMs = 10000 ∧ projectTimeoutMs = 15000 ∧
      strIncludes singleRunTimeoutText "timed out" = true ∧
      strIncludes projectTimeoutText "timed out" = true) := by
  refine ⟨?_, ?_, rfl, rfl, by decide, by decide⟩
  · intro env c l i cname hsup hok hto
    obtain ⟨hins, hw, hr⟩ := hok
    obtain ⟨cmd, hcmd⟩ := getExecutionCommand_ok (fileNameFor l c) hsup
    rcases executeCode_dispatch env c l i hsup hins with h | h <;>
      rw [h, executeCodeTail_timeout env c l i _ cmd hw hcmd hr hto] <;>
      exact ⟨rfl, by simp⟩
  · intro env req cname hsup hok hto
    obtain ⟨hins, hmk, hwr, hr⟩ := hok
    obtain ⟨cmd, hcmd⟩ := getExecutionCommand_ok req.mainFile hsup
    rcases executeProject_dispatch env req hsup hins with h | h <;>
      rw [h] <;> exact executeProjectTail_timeout env req _ cmd hmk hwr hcmd hr hto

/-- C4 (witness). -/
theorem timeout_branch_result_witness :
    (executeCode ⟨Except.ok ⟨true⟩, Except.ok (), Except.ok (), Except.ok (),
        RaceOutcome.timeout, Except.ok ()⟩ "while True: pass" "python" none).1 =
      ⟨"", singleRunTimeoutText⟩ ∧
    Action.destroyStream singleRunTimeoutMs ∈
      (executeCode ⟨Except.ok ⟨true⟩, Except.ok (), Except.ok (), Except.ok (),
        RaceOutcome.timeout, Except.ok ()⟩ "while True: pass" "python" none).2 := by
  exact timeout_branch_result.1 _ "while True: pass" "python" none "nexusquest-python"
    (by decide) ⟨Or.inl rfl, rfl, rfl⟩ rfl

/-- C6 (counterexample): with collected streams, the source substitutes
the sentinel for an empty trimmed stdout even when stderr is populated,
and it trims leading as well as trailing whitespace — both contrary to
the claimed shaping, whose spec-side reading is `specClaimedOutcome`. -/
theorem sentinel_despite_error_counterexample :
    (executeCode ⟨Except.ok ⟨true⟩, Except.ok (), Except.ok (), Except.ok (),
        RaceOutcome.collected "" "boom", Except.ok ()⟩ "x" "python" none).1 =
      ⟨noOutputSentinel, "boom"⟩ ∧
    specClaimedOutcome "" "boom" = ⟨"", "boom"⟩ ∧
    noOutputSentinel ≠ "" ∧
    (executeCode ⟨Except.ok ⟨true⟩, Except.ok (), Except.ok (), Except.ok (),
        RaceOutcome.collected "  x" "", Except.ok ()⟩ "x" "python" none).1.output = "x" ∧
    (specClaimedOutcome "  x" "").output = "  x" := by
  refine ⟨by decide, by decide, by decide, by decide, by decide⟩

/-- C6 (amended): on the collected (non-timeout, non-throw) branch, both
streams are trimmed of leading and trailing whitespace, the error field is
the trimmed stderr, and the output field is the trimmed stdout with the
sentinel substituted exactly when the trimmed stdout is empty — regardless
of whether stderr reported an error. -/
theorem collected_result_shape :
    (∀ (env : ExecEnv) (c l : String) (i : Option String) (cname so se : String),
      persistentContainers (jsToLower l) = some cname → ExecEnvOk env →
      env.race = RaceOutcome.collected so se →
      (executeCode env c l i).1 =
        ⟨if jsTrim so = "" then noOutputSentinel else jsTrim so, jsTrim se⟩) ∧
    (∀ (env : ProjectEnv) (req : ProjectExecutionRequest) (cname so se : String),
      persistentContainers (jsToLower req.language) = some cname →
      ProjectEnvOk env → env.race = RaceOutcome.collected so se →
      (executeProject env req).1 =
        ⟨if jsTrim so = "" then noOutputSentinel else jsTrim so, jsTrim se⟩) := by
  constructor
  · intro env c l i cname so se hsup hok hc
    obtain ⟨hins, hw, hr⟩ := hok
    obtain ⟨cmd, hcmd⟩ := getExecutionCommand_ok (fileNameFor l c) hsup
    rcases executeCode_dispatch env c l i hsup hins with h | h <;>
      rw [h, executeCodeTail_collected env c l i _ cmd so se hw hcmd hr hc]
  · intro env req cname so se hsup hok hc
    obtain ⟨hins, hmk, hwr, hr⟩ := hok
    obtain ⟨cmd, hcmd⟩ := getExecutionCommand_ok req.mainFile hsup
    rcases executeProject_dispatch env req hsup hins with h | h <;>
      rw [h] <;> exact executeProjectTail_collected env req _ cmd so se hmk hwr hcmd hr hc

/-- C6 (witness). -/
theorem collected_result_shape_witness :
    (executeCode ⟨Except.ok ⟨true⟩, Except.ok (), Except.ok (), Except.ok (),
        RaceOutcome.collected "hi \n" "", Except.ok ()⟩ "print(1)" "python" none).1 =
      ⟨if jsTrim "hi \n" = "" then noOutputSentinel else jsTrim "hi \n", jsTrim ""⟩ := by
  exact collected_result_shape.1 _ "print(1)" "python" none "nexusquest-python" "hi \n" ""
    (by decide) ⟨Or.inl rfl, rfl, rfl⟩ rfl

/-- C2 (counterexample): a runtime failure — collected with empty stdout
and a populated stderr — yields a result whose output is the sentinel
message, not the empty string. -/
theorem runtime_error_output_counterexample :
    (executeCode ⟨Except.ok ⟨true⟩, Except.ok (), Except.ok (), Except.ok (),
        RaceOutcome.collected "" "Traceback: boom", Except.ok ()⟩ "x" "python" none).1 =
      ⟨noOutputSentinel, "Traceback: boom"⟩ ∧
    noOutputSentinel ≠ "" := by
  exact ⟨by decide, by decide⟩

/-- C2 (amended): `executeCode` always returns a result value; a result
with empty output always carries a non-empty error; unsupported languages
and a missing persistent container yield empty output with a fixed
non-empty error; but a runtime/compiler failure (collected stderr) yields
the trimmed stderr as error with the trimmed stdout — or the sentinel,
never the empty string — as output. -/
theorem executeCode_failure_surface :
    (∀ (env : ExecEnv) (c l : String) (i : Option String),
      (executeCode env c l i).1.output = "" → (executeCode env c l i).1.error ≠ "") ∧
    (∀ (env : ExecEnv) (c l : String) (i : Option String),
      persistentContainers (jsToLower l) = none →
      (executeCode env c l i).1 = ⟨"", "Unsupported language: " ++ l⟩) ∧
    (∀ (env : ExecEnv) (c l : String) (i : Option String) (cname : String)
      (e : DockerErr),
      persistentContainers (jsToLower l) = some cname →
      env.inspect = Except.error e → e.statusCode = some 404 →
      (executeCode env c l i).1 =
        ⟨"", "Container " ++ cname ++ " not found. Please run: docker-compose up -d"⟩) ∧
    (∀ (env : ExecEnv) (c l : String) (i : Option String) (cname so se : String),
      persistentContainers (jsToLower l) = some cname → ExecEnvOk env →
      env.race = RaceOutcome.collected so se →
      (executeCode env c l i).1.error = jsTrim se ∧
      (executeCode env c l i).1.output ≠ "") := by
  refine ⟨executeCode_no_silent, ?_, ?_, ?_⟩
  · intro env c l i hnone
    simp [executeCode, hnone]
  · intro env c l i cname e hsup hins h404
    simp [executeCode, hsup, hins, h404]
  · intro env c l i cname so se hsup hok hc
    obtain ⟨hins, hw, hr⟩ := hok
    obtain ⟨cmd, hcmd⟩ := getExecutionCommand_ok (fileNameFor l c) hsup
    rcases executeCode_dispatch env c l i hsup hins with h | h <;>
      rw [h, executeCodeTail_collected env c l i _ cmd so se hw hcmd hr hc] <;>
      refine ⟨rfl, ?_⟩ <;> by_cases hso : jsTrim so = "" <;> simp [hso] <;> decide

/-- C2 (witness). -/
theorem executeCode_failure_surface_witness :
    (executeCode ⟨Except.error ⟨some 404, "no such container"⟩, Except.ok (),
        Except.ok (), Except.ok (), RaceOutcome.collected "" "", Except.ok ()⟩
        "print(1)" "python" none).1 =
      ⟨"", "Container nexusquest-python not found. Please run: docker-compose up -d"⟩ := by
  exact executeCode_failure_surface.2.2.1 _ "print(1)" "python" none "nexusquest-python"
    ⟨some 404, "no such container"⟩ (by decide) rfl rfl

/-- C3 (counterexample): when the timeout branch wins, `executeCode`
returns through its catch handler with no artifact-cleanup exec in its
trace, while the collected branch of the same environment does record
one. -/
theorem cleanup_skipped_on_timeout_counterexample :
    ((executeCode ⟨Except.ok ⟨true⟩, Except.ok (), Except.ok (), Except.ok (),
        RaceOutcome.timeout, Except.ok ()⟩ "print(1)" "python" none).2.all
      fun a => !a.isCleanupFiles) = true ∧
    (executeCode ⟨Except.ok ⟨true⟩, Except.ok (), Except.ok (), Except.ok (),
        RaceOutcome.timeout, Except.ok ()⟩ "print(1)" "python" none).1 =
      ⟨"", singleRunTimeoutText⟩ ∧
    ((executeCode ⟨Except.ok ⟨true⟩, Except.ok (), Except.ok (), Except.ok (),
        RaceOutcome.collected "ok" "", Except.ok ()⟩ "print(1)" "python" none).2.any
      fun a => a.isCleanupFiles) = true := by
  refine ⟨by decide, by decide, by decide⟩

/-- C3 (amended): in `executeCode` the best-effort artifact removal runs
exactly on the output-collection branch: it is recorded when the collected
branch wins and absent from the whole trace when the timeout branch wins
(persistent-container release being a no-op); in
`executeCodeInTempContainer` a container removal is attempted on the
timeout/exception path via the catch handler, and on the collected path
after a successful stop. -/
theorem cleanup_path_conditional :
    (∀ (env : ExecEnv) (c l : String) (i : Option String) (cname so se : String),
      persistentContainers (jsToLower l) = some cname → ExecEnvOk env →
      env.race = RaceOutcome.collected so se →
      Action.cleanupFiles (cleanupCmdFor (fileNameFor l c)) ∈ (executeCode env c l i).2) ∧
    (∀ (env : ExecEnv) (c l : String) (i : Option String) (cname : String),
      persistentContainers (jsToLower l) = some cname → ExecEnvOk env →
      env.race = RaceOutcome.timeout →
      ((executeCode env c l i).2.all fun a => !a.isCleanupFiles) = true) ∧
    (∀ (env : TempEnv) (c l : String) (i : Option String) (cmd : String),
      TempEnvOk env →
      tempExecCommand l (getDefaultFileName l "daily-challenge" c) c = some cmd →
      env.race = TempRace.timeout →
      Action.removeContainer ∈ (executeCodeInTempContainer env c l i).2) ∧
    (∀ (env : TempEnv) (c l : String) (i : Option String) (cmd so se : String),
      TempEnvOk env →
      tempExecCommand l (getDefaultFileName l "daily-challenge" c) c = some cmd →
      env.race = TempRace.collected so se → env.stopC = Except.ok () →
      Action.removeContainer ∈ (executeCodeInTempContainer env c l i).2) := by
  refine ⟨?_, ?_, ?_, ?_⟩
  · intro env c l i cname so se hsup hok hc
    obtain ⟨hins, hw, hr⟩ := hok
    obtain ⟨cmd, hcmd⟩ := getExecutionCommand_ok (fileNameFor l c) hsup
    rcases executeCode_dispatch env c l i hsup hins with h | h <;>
      rw [h, executeCodeTail_collected env c l i _ cmd so se hw hcmd hr hc] <;> simp
  · intro env c l i cname hsup hok hto
    obtain ⟨hins, hw, hr⟩ := hok
    obtain ⟨cmd, hcmd⟩ := getExecutionCommand_ok (fileNameFor l c) hsup
    rcases executeCode_dispatch env c l i hsup hins with h | h <;>
      rw [h, executeCodeTail_timeout env c l i _ cmd hw hcmd hr hto] <;>
      simp [List.all_append, Action.isCleanupFiles] <;>
      exact stdinActions_no_cleanup i
  · intro env c l i cmd hok hcmd hto
    obtain ⟨hcr, hst, hw, hr⟩ := hok
    simp [executeCodeInTempContainer, hcr, hst, hw, hcmd, hr, hto, tempCaught]
  · intro env c l i cmd so se hok hcmd hc hstop
    obtain ⟨hcr, hst, hw, hr⟩ := hok
    simp [executeCodeInTempContainer, hcr, hst, hw, hcmd, hr, hc, hstop]

/-- C3 (witness). -/
theorem cleanup_path_conditional_witness :
    Action.cleanupFiles (cleanupCmdFor (fileNameFor "python" "print(1)")) ∈
      (executeCode ⟨Except.ok ⟨true⟩, Except.ok (), Except.ok (), Except.ok (),
        RaceOutcome.collected "ok" "", Except.ok ()⟩ "print(1)" "python" none).2 := by
  exact cleanup_path_conditional.1 _ "print(1)" "python" none "nexusquest-python" "ok" ""
    (by decide) ⟨Or.inl rfl, rfl, rfl⟩ rfl


/-- C10 (counterexample): an empty-string `code` is a present string value
within every other bound — yet the middleware rejects it (the falsy check
fires), so the claimed reject condition list is incomplete. -/
theorem empty_code_rejected_counterexample :
    validateCode ⟨BodyCode.str "", none⟩ =
      ValidationOutcome.reject 400 "Code is required and must be a string" ∧
    ("" : String).length ≤ 50000 ∧ dangerousPatternHit "" = false := by
  refine ⟨by decide, by decide, by decide⟩

/-- C10 (amended): `validateCode` forwards exactly when the body carries a
string `code` that is non-empty, at most 50,000 characters, and free of
the twelve dangerous patterns, and any supplied language is empty (falsy,
hence unchecked) or `python` case-insensitively; every rejection carries
HTTP status 400; `import os` is rejected as dangerous while `print(1)`
with language `Python` forwards. -/
theorem validateCode_characterization :
    (∀ body : RunRequestBody, validateCode body = ValidationOutcome.forward ↔
      (∃ s, body.code = BodyCode.str s ∧ s ≠ "" ∧ s.length ≤ 50000 ∧
        dangerousPatternHit s = false ∧
        (∀ lang, body.language = some lang → lang = "" ∨ jsToLower lang = "python"))) ∧
    (∀ (body : RunRequestBody) (st : Nat) (m : String),
      validateCode body = ValidationOutcome.reject st m → st = 400) ∧
    (validateCode ⟨BodyCode.str "print(1)", some "Python"⟩ = ValidationOutcome.forward ∧
      validateCode ⟨BodyCode.str "import os", none⟩ =
        ValidationOutcome.reject 400
          "Code contains potentially dangerous operations that are not allowed") := by
  refine ⟨?_, ?_, by decide, by decide⟩
  · rintro ⟨bc, bl⟩
    cases bc with
    | absent => simp [validateCode]
    | nonString => simp [validateCode]
    | str s =>
      constructor
      · intro hfwd
        simp only [validateCode] at hfwd
        by_cases h1 : s = ""
        · rw [if_pos h1] at hfwd; exact absurd hfwd (by simp)
        · rw [if_neg h1] at hfwd
          by_cases h2 : 50000 < s.length
          · rw [if_pos h2] at hfwd; exact absurd hfwd (by simp)
          · rw [if_neg h2] at hfwd
            by_cases h3 : dangerousPatternHit s = true
            · rw [if_pos h3] at hfwd; exact absurd hfwd (by simp)
            · rw [if_neg h3] at hfwd
              refine ⟨s, rfl, h1, by omega, ?_, ?_⟩
              · cases hb : dangerousPatternHit s with
                | true => exact absurd hb h3
                | false => rfl
              · intro lang hlang
                cases bl with
                | none => cases hlang
                | some lang' =>
                  cases hlang
                  simp only [] at hfwd
                  by_cases h4 : lang = ""
                  · exact Or.inl h4
                  · rw [if_neg h4] at hfwd
                    by_cases h5 : jsToLower lang = "python"
                    · exact Or.inr h5
                    · rw [if_neg h5] at hfwd
                      exact absurd hfwd (by simp)
      · rintro ⟨s', hs', hne, hlen, hdang, hlang⟩
        cases hs'
        simp only [validateCode]
        rw [if_neg hne, if_neg (by omega), if_neg (by simp [hdang])]
        cases bl with
        | none => rfl
        | some lang =>
          show (if lang = "" then ValidationOutcome.forward
            else if jsToLower lang = "python" then ValidationOutcome.forward
            else ValidationOutcome.reject 400
              ( "Language " ++ lang ++ " is not supported. Supported languages: python")) =
            ValidationOutcome.forward
          rcases hlang lang rfl with h4 | h5
          · rw [if_pos h4]
          · by_cases h4 : lang = ""
            · rw [if_pos h4]
            · rw [if_neg h4, if_pos h5]
  · rintro ⟨bc, bl⟩ st m h
    cases bc with
    | absent => cases h; rfl
    | nonString => cases h; rfl
    | str s =>
      simp only [validateCode] at h
      by_cases h1 : s = ""
      · rw [if_pos h1] at h; cases h; rfl
      · rw [if_neg h1] at h
        by_cases h2 : 50000 < s.length
        · rw [if_pos h2] at h; cases h; rfl
        · rw [if_neg h2] at h
          by_cases h3 : dangerousPatternHit s = true
          · rw [if_pos h3] at h; cases h; rfl
          · rw [if_neg h3] at h
            cases bl with
            | none => cases h
            | some lang =>
              simp only [] at h
              by_cases h4 : lang = ""
              · rw [if_pos h4] at h; cases h
              · rw [if_neg h4] at h
                by_cases h5 : jsToLower lang = "python"
                · rw [if_pos h5] at h; cases h
                · rw [if_neg h5] at h; cases h; rfl

/-- C10 (witness). -/
theorem validateCode_characterization_witness :
    validateCode ⟨BodyCode.str "x = 1", some "PYTHON"⟩ = ValidationOutcome.forward := by
  refine (validateCode_characterization.1 ⟨BodyCode.str "x = 1", some "PYTHON"⟩).mpr
    ⟨"x = 1", rfl, by decide, by decide, by decide, ?_⟩
  rintro lang hl
  cases hl
  exact Or.inr (by decide)

end NexusQuest
